import Mathlib

/-!
Shallow embedding of the secret resolution and generation engine of
`pkg/controller/appdefinition/secret.go` (package `appdefinition`).

Go maps of byte strings are modelled as association lists over `String`
(`DataMap`) with `dget`/`dset` giving Go's map read/write semantics
(a missing key reads as the empty string via `dgetD`).  Go's
`(value, error)` returns are modelled with `Except GoErr` for functions
that cannot panic and with `ROut` (ok / error / panic) where a Go slice
expression can go out of bounds or recursion can fail to terminate.
The object store, crypto primitives, the randomness source and
`encoding/json` are external collaborators and appear as function
fields of `Env`.
-/

namespace HerdSecrets

/-- Go map read over an association list with string keys. -/
def aget {α : Type} (m : List (String × α)) (k : String) : Option α :=
  (m.find? (fun p => p.1 == k)).map (fun p => p.2)

/-- Go map write `m[k] = v`; keeps keys unique. -/
def aset {α : Type} (m : List (String × α)) (k : String) (v : α) : List (String × α) :=
  (k, v) :: m.filter (fun p => ¬ p.1 == k)

/-- A Go `map[string][]byte` / `map[string]string`, as an association list.
Only `dget`/`dgetD`-observations matter; `dset` keeps keys unique. -/
abbrev DataMap := List (String × String)

def dget (m : DataMap) (k : String) : Option String :=
  aget m k

/-- Go map read: a missing key reads as the zero value (empty string). -/
def dgetD (m : DataMap) (k : String) : String :=
  (dget m k).getD ""

/-- Go map write `m[k] = v`. -/
def dset (m : DataMap) (k : String) (v : String) : DataMap :=
  aset m k v

/-- `seedData` from secret.go lines 27-33: for each key in `keys` the
result holds `from[key]`; a key absent from `from` is still inserted,
with the empty string (Go: `to[key] = []byte(from[key])`). -/
def seedData (src : DataMap) (keys : List String) : DataMap :=
  keys.foldl (fun acc key => dset acc key (dgetD src key)) []

/-- Errors of the Go code, by classification shape: `notFound` is a
k8s `apierrors.NewNotFound`-style status error, `apiStatus` any other
`APIStatus`-shaped store error, the rest are plain Go errors. -/
inductive GoErr where
  | notFound (resource : String) (name : String)
  | apiStatus (msg : String)
  | jobNotDone
  | jobNoOutput
  | jsonError (msg : String)
  | other (msg : String)
deriving DecidableEq, Repr

/-- `apierrors.IsNotFound`. -/
def GoErr.isNotFound : GoErr → Bool
  | .notFound _ _ => true
  | _ => false

/-- `errors.As(err, &apiError)` against `apierrors.APIStatus`: true for
any k8s status error, including not-found. -/
def GoErr.isAPIStatus : GoErr → Bool
  | .notFound _ _ => true
  | .apiStatus _ => true
  | _ => false

/-- `err.Error()` as used by `fmt.Sprintf("%s: %v", ...)` and the
condition setter.  `jobNotDone`/`jobNoOutput` carry the exact
`errors.New` texts of secret.go lines 36-37. -/
def GoErr.message : GoErr → String
  | .notFound res name => res ++ " \x22" ++ name ++ "\x22 not found"
  | .apiStatus m => m
  | .jobNotDone => "job not complete"
  | .jobNoOutput => "job has no output"
  | .jsonError m => m
  | .other m => m

/-- Generator-relevant fields of the descriptor's `Params` map
(`convert.ToString(secretRef.Params[...])` / `v1.TLSParams`); an absent
entry converts to the empty string. -/
structure Params where
  job : String := ""
  format : String := ""
  caSecret : String := ""
  algorithm : String := ""
deriving DecidableEq, Repr

/-- A secret descriptor (`v1.Secret` of the app spec). -/
structure SecretRef where
  type : String := ""
  data : DataMap := []
  params : Params := {}
  optional : Option Bool := none
deriving DecidableEq, Repr

/-- A `v1.SecretBinding` from `appInstance.Spec.Secrets`. -/
structure Binding where
  secretRequest : String
  secret : String
deriving DecidableEq, Repr

/-- The fields of `v1.AppInstance` the engine reads. -/
structure AppInstance where
  name : String := ""
  appNamespace : String := ""
  statusNamespace : String := ""
  uid : String := ""
  bindings : List Binding := []
  specSecrets : List (String × SecretRef) := []
deriving DecidableEq, Repr

/-- A `corev1.Secret`, with `uid` its store-assigned identity. -/
structure K8sSecret where
  name : String := ""
  generateName : String := ""
  ns : String := ""
  labels : List (String × String) := []
  data : DataMap := []
  type : String := ""
  uid : String := ""
deriving DecidableEq, Repr, Inhabited

/-- corev1 well-known data keys, by their literal values. -/
def tlsCertKey : String := "tls.crt"

def tlsPrivateKeyKey : String := "tls.key"

def sshAuthPrivateKey : String := "ssh-privatekey"

def basicAuthUsernameKey : String := "username"

def basicAuthPasswordKey : String := "password"

def dockerConfigJsonKey : String := ".dockerconfigjson"

/-- Label keys from the external `labels` package; only their identity
matters to the engine. -/
def herdAppNameKey : String := "herd-project.io/app-name"

def herdAppNamespaceKey : String := "herd-project.io/app-namespace"

def herdManagedKey : String := "herd-project.io/managed"

def herdAppUIDKey : String := "herd-project.io/app-uid"

def herdSecretNameKey : String := "herd-project.io/secret-name"

/-- `labelsForSecret` (secret.go lines 256-264). -/
def labelsForSecret (secretName : String) (app : AppInstance) : List (String × String) :=
  [(herdAppNameKey, app.name),
   (herdAppNamespaceKey, app.appNamespace),
   (herdManagedKey, "true"),
   (herdAppUIDKey, app.uid),
   (herdSecretNameKey, secretName)]

/-- One container status: `some (exitCode, message)` when terminated. -/
structure ContainerStatus where
  terminated : Option (Int × String) := none
deriving DecidableEq, Repr

structure Pod where
  statuses : List ContainerStatus := []
deriving DecidableEq, Repr

/-- The read fields of a `batchv1.Job`. -/
structure Job where
  succeeded : Int := 0
deriving DecidableEq, Repr

/-- Outcome of a Go call that may also panic (out-of-bounds slice,
unbounded recursion). -/
inductive ROut (α : Type) where
  | ok (a : α)
  | err (e : GoErr)
  | panic
deriving DecidableEq, Repr

/-- The external collaborators: object store (get/list/create), batch
job and pod reads, crypto primitives, the randomness source
(`randomtoken.Generate`, indexed by which loop iteration calls it) and
`encoding/json` decoding into `secretData{Type, Data}`. -/
structure Env where
  getSecretByName : String → Except GoErr K8sSecret
  listSecretsByLabels : List (String × String) → Except GoErr (List K8sSecret)
  getJob : String → String → Except GoErr Job
  listPods : String → String → Except GoErr (List Pod)
  createErr : K8sSecret → Option GoErr
  generateCA : String → Except GoErr (String × String)
  generateCert : String → String → Params → Except GoErr (String × String)
  generatePrivateKey : String → Except GoErr String
  randomToken : Nat → String × Option GoErr
  parseSecretData : String → Except GoErr (String × DataMap)

/-- `return secret, req.Client.Create(secret)`: the callers treat a
non-nil create error as failure of the whole generation. -/
def createAnd (env : Env) (s : K8sSecret) : ROut K8sSecret :=
  match env.createErr s with
  | some e => .err e
  | none => .ok s

/-- First container status terminated with exit code 0 and a non-empty
message (secret.go lines 73-82, inner loop). -/
def podOutput (p : Pod) : Option String :=
  p.statuses.findSome? (fun st =>
    match st.terminated with
    | some (code, msg) => if code = 0 ∧ msg.length > 0 then some msg else none
    | none => none)

def podsOutput (pods : List Pod) : Option String :=
  pods.findSome? podOutput

/-- `getJobOutput` (secret.go lines 40-85). -/
def getJobOutput (env : Env) (ns : String) (name : String) : Except GoErr String :=
  match env.getJob ns name with
  | .error e => .error e
  | .ok job =>
    if job.succeeded ≠ 1 then .error .jobNotDone
    else
      match env.listPods ns name with
      | .error e => .error e
      | .ok pods =>
        if pods.length = 0 then .error (.notFound "pods" "")
        else
          match podsOutput pods with
          | some msg => .ok msg
          | none => .error .jobNoOutput

/-- `generatedSecret` (secret.go lines 87-121).  Note the seed key
list is empty: `seedData(secretRef.Data)` names no keys. -/
def generatedSecret (env : Env) (app : AppInstance) (secretName : String)
    (secretRef : SecretRef) : ROut K8sSecret :=
  match getJobOutput env app.statusNamespace secretRef.params.job with
  | .error e => .err e
  | .ok output =>
    let secret : K8sSecret :=
      { generateName := secretName ++ "-", ns := app.appNamespace
        labels := labelsForSecret secretName app
        data := seedData secretRef.data [], type := "Opaque" }
    match secretRef.params.format with
    | "text" => .ok { secret with data := dset secret.data "content" output }
    | "json" =>
      match env.parseSecretData output with
      | .error e => .err e
      | .ok parsed =>
        let data := parsed.2.foldl (fun d p => dset d p.1 p.2) secret.data
        .ok { secret with
              data := data
              type := if parsed.1 ≠ "" then parsed.1 else secret.type }
    | _ => .ok secret

/-- `v1.TLSParams.Complete` (external), per the spec: default algorithm
if unspecified.  Modelled from the spec: the concrete default value is
in the external apis package and is opaque here. -/
def paramsComplete (p : Params) : Params :=
  if p.algorithm = "" then { p with algorithm := "default" } else p

/-- `generateSSH` (secret.go lines 128-156). -/
def generateSSH (env : Env) (app : AppInstance) (secretName : String)
    (secretRef : SecretRef) : ROut K8sSecret :=
  let secret : K8sSecret :=
    { generateName := secretName ++ "-", ns := app.appNamespace
      labels := labelsForSecret secretName app
      data := seedData secretRef.data [sshAuthPrivateKey]
      type := "kubernetes.io/ssh-auth" }
  if (dgetD secret.data sshAuthPrivateKey).length > 0 then createAnd env secret
  else
    let params := paramsComplete secretRef.params
    match env.generatePrivateKey params.algorithm with
    | .error e => .err e
    | .ok key => createAnd env { secret with data := dset secret.data sshAuthPrivateKey key }

/-- Go string slice `v[:n]`: panics (`none`) when `n` exceeds the
length. -/
def goSlice (s : String) (n : Nat) : Option String :=
  if n ≤ s.length then some (String.mk (s.toList.take n)) else none

/-- Record update of a secret's data map. -/
def withData (s : K8sSecret) (d : DataMap) : K8sSecret :=
  { s with data := d }

/-- One iteration of the `generateBasic` loop (secret.go lines
224-234): note the truncation `v[:(i+1)*8]` happens before `err` is
inspected. -/
def basicStep (env : Env) (i : Nat) (key : String) (secret : K8sSecret) : ROut K8sSecret :=
  if (dgetD secret.data key).length = 0 then
    let tok := env.randomToken i
    match goSlice tok.1 ((i + 1) * 8) with
    | none => .panic
    | some v =>
      match tok.2 with
      | some e => .err e
      | none => .ok { secret with data := dset secret.data key v }
  else .ok secret

/-- The two iterations of the `generateBasic` loop (i = 0 for the
username, i = 1 for the password) followed by the create call. -/
def basicChain (env : Env) (secret : K8sSecret) : ROut K8sSecret :=
  match basicStep env 0 basicAuthUsernameKey secret with
  | .ok s1 =>
    match basicStep env 1 basicAuthPasswordKey s1 with
    | .ok s2 => createAnd env s2
    | out => out
  | out => out

/-- `generateBasic` (secret.go lines 213-237). -/
def generateBasic (env : Env) (app : AppInstance) (secretName : String)
    (secretRef : SecretRef) : ROut K8sSecret :=
  basicChain env
    { generateName := secretName ++ "-", ns := app.appNamespace
      labels := labelsForSecret secretName app
      data := seedData secretRef.data [basicAuthUsernameKey, basicAuthPasswordKey]
      type := "kubernetes.io/basic-auth" }

/-- `generateDocker` (secret.go lines 239-254). -/
def generateDocker (env : Env) (app : AppInstance) (secretName : String)
    (secretRef : SecretRef) : ROut K8sSecret :=
  let secret : K8sSecret :=
    { generateName := secretName ++ "-", ns := app.appNamespace
      labels := labelsForSecret secretName app
      data := seedData secretRef.data [dockerConfigJsonKey]
      type := "kubernetes.io/dockerconfigjson" }
  let secret :=
    if (dgetD secret.data dockerConfigJsonKey).length = 0 then
      { secret with data := dset secret.data dockerConfigJsonKey "\x7b\x7d" }
    else secret
  createAnd env secret

/-- Go's byte-wise string order (`sort.Strings`, `<` on strings),
char-wise over code points; UTF-8 byte order and code-point order
agree. -/
def strListLe : List Char → List Char → Bool
  | [], _ => true
  | _ :: _, [] => false
  | a :: as, b :: bs =>
    if a < b then true
    else if b < a then false
    else strListLe as bs

def strLe (a b : String) : Bool :=
  strListLe a.toList b.toList

/-- Sort of the label-selected secrets by UID.  Go uses an unstable
`sort.Slice` with `UID <`; any UID-sort yields a minimal head, which
is all `getSecret` uses. -/
def sortByUid (l : List K8sSecret) : List K8sSecret :=
  List.insertionSort (fun a b => strLe a.uid b.uid) l

/-- `getSecret` (secret.go lines 266-289). -/
def getSecret (env : Env) (app : AppInstance) (name : String) : Except GoErr K8sSecret :=
  match env.listSecretsByLabels (labelsForSecret name app) with
  | .error e => .error e
  | .ok items =>
    if items.length = 0 then .error (.notFound "secrets" name)
    else .ok ((sortByUid items).headD default)

/-- The pass-scoped cache `secrets map[string]*corev1.Secret`. -/
abbrev Cache := List (String × K8sSecret)

def cacheGet (c : Cache) (k : String) : Option K8sSecret :=
  aget c k

def cacheSet (c : Cache) (k : String) (v : K8sSecret) : Cache :=
  aset c k v

def lookupRef (m : List (String × SecretRef)) (k : String) : Option SecretRef :=
  aget m k

/-- `generateTLS` (secret.go lines 158-211), parameterized by the
resolver `r` used for the recursive `getOrCreateSecret` call on
`params.CASecret`. -/
def generateTLSwith (r : Cache → String → Cache × ROut K8sSecret) (env : Env)
    (app : AppInstance) (secretName : String) (secretRef : SecretRef)
    (secrets : Cache) : Cache × ROut K8sSecret :=
  let secret : K8sSecret :=
    { generateName := secretName ++ "-", ns := app.appNamespace
      labels := labelsForSecret secretName app
      data := seedData secretRef.data [tlsCertKey, tlsPrivateKeyKey, "ca.crt", "ca.key"]
      type := "kubernetes.io/tls" }
  if (dgetD secret.data tlsCertKey).length > 0 ∧ (dgetD secret.data tlsPrivateKeyKey).length > 0 then
    (secrets, createAnd env secret)
  else
    let params := secretRef.params
    let caPEM0 := dgetD secret.data "ca.crt"
    let caKeyPEM0 := dgetD secret.data "ca.key"
    let caRes : Cache × ROut (String × String) :=
      if caPEM0.length = 0 ∨ caKeyPEM0.length = 0 then
        if params.caSecret = "" then
          match env.generateCA params.algorithm with
          | .error e => (secrets, .err e)
          | .ok ca => (secrets, .ok ca)
        else
          match r secrets params.caSecret with
          | (secrets', .ok caSec) =>
            (secrets', .ok (dgetD caSec.data "ca.crt", dgetD caSec.data "ca.key"))
          | (secrets', .err e) => (secrets', .err e)
          | (secrets', .panic) => (secrets', .panic)
      else (secrets, .ok (caPEM0, caKeyPEM0))
    match caRes with
    | (secrets', .ok ca) =>
      match env.generateCert ca.1 ca.2 params with
      | .error e => (secrets', .err e)
      | .ok ck =>
        let data := dset (dset secret.data tlsCertKey ck.1) tlsPrivateKeyKey ck.2
        let data :=
          if params.caSecret = "" then dset (dset data "ca.crt" ca.1) "ca.key" ca.2
          else data
        (secrets', createAnd env { secret with data := data })
    | (secrets', .err e) => (secrets', .err e)
    | (secrets', .panic) => (secrets', .panic)

/-- `generateSecret` (secret.go lines 291-317), parameterized by the
resolver for the TLS recursion. -/
def generateSecretWith (r : Cache → String → Cache × ROut K8sSecret) (env : Env)
    (app : AppInstance) (secrets : Cache) (secretName : String) : Cache × ROut K8sSecret :=
  match getSecret env app secretName with
  | .error e =>
    if e.isNotFound then
      match lookupRef app.specSecrets secretName with
      | none => (secrets, .err (.notFound "secrets" secretName))
      | some secretRef =>
        match secretRef.type with
        | "docker" => (secrets, generateDocker env app secretName secretRef)
        | "basic" => (secrets, generateBasic env app secretName secretRef)
        | "tls" => generateTLSwith r env app secretName secretRef secrets
        | "ssh-auth" => (secrets, generateSSH env app secretName secretRef)
        | "generated" => (secrets, generatedSecret env app secretName secretRef)
        | _ => (secrets, .err e)
    else (secrets, .err e)
  | .ok sec => (secrets, .ok sec)

/-- One unfolding of `getOrCreateSecret` (secret.go lines 319-343):
cache hit, then explicit binding, then generation; the resolver `r`
stands for the recursive call made inside TLS generation. -/
def resolveWith (r : Cache → String → Cache × ROut K8sSecret) (env : Env)
    (app : AppInstance) (secrets : Cache) (secretName : String) : Cache × ROut K8sSecret :=
  match cacheGet secrets secretName with
  | some sec => (secrets, .ok sec)
  | none =>
    match app.bindings.find? (fun b => b.secretRequest == secretName) with
    | some binding =>
      match env.getSecretByName binding.secret with
      | .error e => (secrets, .err e)
      | .ok existing => (cacheSet secrets secretName existing, .ok existing)
    | none =>
      match generateSecretWith r env app secrets secretName with
      | (secrets', .ok sec) => (cacheSet secrets' secretName sec, .ok sec)
      | out => out

/-- `getOrCreateSecret` (secret.go lines 319-343).  `fuel` bounds the
recursion through `generateTLS`'s CA resolution, which the Go code
leaves unbounded (spec §9); exhausting it is modelled as a panic. -/
def getOrCreateSecret : Nat → Env → AppInstance → Cache → String → Cache × ROut K8sSecret
  | 0, env, app => resolveWith (fun c _ => (c, .panic)) env app
  | fuel + 1, env, app => resolveWith (fun c n => getOrCreateSecret fuel env app c n) env app

/-- `typed.Sorted`: the descriptor map's entries sorted by key. -/
def sortByKey (l : List (String × SecretRef)) : List (String × SecretRef) :=
  List.insertionSort (fun a b => strLe a.1 b.1) l

/-- `secretsOrdered` (secret.go lines 350-361). -/
def secretsOrdered (app : AppInstance) : List (String × SecretRef) :=
  let p := (sortByKey app.specSecrets).foldl
    (fun (acc : List (String × SecretRef) × List (String × SecretRef)) entry =>
      if entry.2.type == "generated" then (acc.1, acc.2 ++ [entry])
      else (acc.1 ++ [entry], acc.2))
    ([], [])
  p.1 ++ p.2

/-- The mutable locals of the `CreateSecrets` loop. -/
structure LoopState where
  missing : List String := []
  errored : List String := []
  objects : List K8sSecret := []
  secrets : Cache := []
deriving DecidableEq, Repr

inductive LoopOut where
  | done (st : LoopState)
  | fatal (st : LoopState) (e : GoErr)
  | panicked
deriving DecidableEq, Repr

/-- The projection emitted by `resp.Objects` (secret.go lines
417-429). -/
def projectedSecret (app : AppInstance) (secretName : String) (sec : K8sSecret) : K8sSecret :=
  { name := secretName, ns := app.statusNamespace
    labels := [(herdAppNameKey, app.name),
               (herdAppNamespaceKey, app.appNamespace),
               (herdManagedKey, "true")]
    data := sec.data, type := sec.type }

/-- The body of the `CreateSecrets` range loop (secret.go lines
402-430). -/
def secretsLoop (fuel : Nat) (env : Env) (app : AppInstance) :
    List (String × SecretRef) → LoopState → LoopOut
  | [], st => .done st
  | (secretName, secretRef) :: rest, st =>
    match getOrCreateSecret fuel env app st.secrets secretName with
    | (_, .panic) => .panicked
    | (secrets', .err e) =>
      if e.isNotFound then
        secretsLoop fuel env app rest
          { st with
            secrets := secrets'
            missing := if secretRef.optional = some true then st.missing
                       else st.missing ++ [secretName] }
      else if e.isAPIStatus then .fatal { st with secrets := secrets' } e
      else
        secretsLoop fuel env app rest
          { st with
            secrets := secrets'
            errored := st.errored ++ [secretName ++ ": " ++ e.message] }
    | (secrets', .ok sec) =>
      secretsLoop fuel env app rest
        { st with
          secrets := secrets'
          objects := st.objects ++ [projectedSecret app secretName sec] }

inductive CondStatus where
  | success
  | failed (msg : String)
deriving DecidableEq, Repr

/-- The reconciliation outcome: the aggregate condition, the projected
objects handed to `resp.Objects`, and the handler's returned error. -/
structure PassResult where
  cond : CondStatus
  objects : List K8sSecret
  returned : Option GoErr
deriving DecidableEq, Repr

/-- `sort.Strings`. -/
def sortStrings (l : List String) : List String :=
  List.insertionSort (fun a b => strLe a b) l

/-- `strings.Join(l, ", ")`. -/
def joinComma : List String → String
  | [] => ""
  | [x] => x
  | x :: y :: rest => x ++ ", " ++ joinComma (y :: rest)

/-- The deferred condition-message builder of `CreateSecrets`
(secret.go lines 378-393). -/
def condMessage (missing errored : List String) : String :=
  let buf := if missing.length > 0 then "missing: [" ++ joinComma (sortStrings missing) ++ "]" else ""
  if errored.length > 0 then
    (if buf.length > 0 then buf ++ " " else buf) ++
      "errored: [" ++ joinComma (sortStrings errored) ++ "]"
  else buf

/-- `CreateSecrets` (secret.go lines 363-433). -/
def CreateSecrets (fuel : Nat) (env : Env) (app : AppInstance) : ROut PassResult :=
  match secretsLoop fuel env app (secretsOrdered app) {} with
  | .panicked => .panic
  | .fatal st e => .ok { cond := .failed e.message, objects := st.objects, returned := some e }
  | .done st =>
    let msg := condMessage st.missing st.errored
    .ok { cond := if msg.length > 0 then .failed msg else .success
          objects := st.objects, returned := none }

/-! ### Association-list map lemmas -/

theorem aget_aset_self {α : Type} (m : List (String × α)) (k : String) (v : α) :
    aget (aset m k v) k = some v := by
  simp [aget, aset]

theorem aget_aset_ne {α : Type} (m : List (String × α)) (k k' : String) (v : α)
    (h : k ≠ k') : aget (aset m k v) k' = aget m k' := by
  simp only [aget, aset]
  rw [List.find?_cons_of_neg _ (by simp [h])]
  congr 1
  induction m with
  | nil => rfl
  | cons p rest ih =>
    rw [List.filter_cons]
    by_cases hp : p.1 = k
    · rw [if_neg (by simp [hp]),
        List.find?_cons_of_neg _ (by simp only [hp, beq_iff_eq]; exact h), ih]
    · rw [if_pos (by simp [hp])]
      by_cases hk' : p.1 = k'
      · rw [List.find?_cons_of_pos _ (by simp [hk']),
          List.find?_cons_of_pos _ (by simp [hk'])]
      · rw [List.find?_cons_of_neg _ (by simp [hk']),
          List.find?_cons_of_neg _ (by simp [hk'])]
        exact ih

theorem seedData_go (src : DataMap) :
    ∀ (keys : List String) (acc : DataMap) (k : String),
      dget (keys.foldl (fun a key => dset a key (dgetD src key)) acc) k
        = if k ∈ keys then some (dgetD src k) else dget acc k := by
  intro keys
  induction keys with
  | nil => intro acc k; simp
  | cons key rest ih =>
    intro acc k
    simp only [List.foldl_cons, ih]
    by_cases hmem : k ∈ rest
    · simp [hmem]
    · by_cases hk : k = key
      · subst hk
        simp [hmem, dget, dset, aget_aset_self]
      · simp only [hmem, if_false, List.mem_cons, hk, false_or]
        rw [show dget (dset acc key (dgetD src key)) k = dget acc k from
          aget_aset_ne acc key k _ (fun h => hk h.symm)]

/-- Every key named to `seedData` is present in the result, holding the
seed value (the empty string when the seed is absent). -/
theorem dget_seedData (src : DataMap) (keys : List String) (k : String) (h : k ∈ keys) :
    dget (seedData src keys) k = some (dgetD src k) := by
  simp only [seedData]
  rw [seedData_go src keys [] k, if_pos h]

theorem dget_seedData_not_mem (src : DataMap) (keys : List String) (k : String)
    (h : ¬ k ∈ keys) : dget (seedData src keys) k = none := by
  simp only [seedData]
  rw [seedData_go src keys [] k, if_neg h]
  rfl

/-! ### Order facts about the Go string comparison -/

theorem strListLe_cons_iff {x y : Char} {xs ys : List Char} :
    strListLe (x :: xs) (y :: ys) = true ↔ x < y ∨ (x = y ∧ strListLe xs ys = true) := by
  by_cases h1 : x < y
  · simp [strListLe, h1]
  · by_cases h2 : y < x
    · have hne : ¬ x = y := fun h => absurd (h ▸ h2) (lt_irrefl _)
      simp [strListLe, h1, h2, hne]
    · have hxy : x = y := le_antisymm (not_lt.mp h2) (not_lt.mp h1)
      simp [strListLe, h1, h2, hxy]

theorem strListLe_total : ∀ a b : List Char, strListLe a b = true ∨ strListLe b a = true
  | [], _ => .inl rfl
  | _ :: _, [] => .inr rfl
  | a :: as, b :: bs => by
    by_cases h1 : a < b
    · exact .inl (strListLe_cons_iff.mpr (.inl h1))
    · by_cases h2 : b < a
      · exact .inr (strListLe_cons_iff.mpr (.inl h2))
      · have hab : a = b := le_antisymm (not_lt.mp h2) (not_lt.mp h1)
        rcases strListLe_total as bs with h | h
        · exact .inl (strListLe_cons_iff.mpr (.inr (by exact ⟨hab, h⟩)))
        · exact .inr (strListLe_cons_iff.mpr (.inr (by exact ⟨hab.symm, h⟩)))

theorem strListLe_trans :
    ∀ a b c : List Char, strListLe a b = true → strListLe b c = true → strListLe a c = true
  | [], _, _, _, _ => rfl
  | _ :: _, [], _, h1, _ => by simp [strListLe] at h1
  | _ :: _, _ :: _, [], _, h2 => by simp [strListLe] at h2
  | x :: xs, y :: ys, z :: zs, h1, h2 => by
    rcases strListLe_cons_iff.mp h1 with hl | ⟨rfl, hrec1⟩
    · rcases strListLe_cons_iff.mp h2 with hl2 | ⟨rfl, _⟩
      · exact strListLe_cons_iff.mpr (.inl (lt_trans hl hl2))
      · exact strListLe_cons_iff.mpr (.inl hl)
    · rcases strListLe_cons_iff.mp h2 with hl2 | ⟨rfl, hrec2⟩
      · exact strListLe_cons_iff.mpr (.inl hl2)
      · exact strListLe_cons_iff.mpr (.inr ⟨rfl, strListLe_trans xs ys zs hrec1 hrec2⟩)

theorem strListLe_antisymm :
    ∀ a b : List Char, strListLe a b = true → strListLe b a = true → a = b
  | [], [], _, _ => rfl
  | [], _ :: _, _, h2 => by simp [strListLe] at h2
  | _ :: _, [], h1, _ => by simp [strListLe] at h1
  | x :: xs, y :: ys, h1, h2 => by
    rcases strListLe_cons_iff.mp h1 with hl | ⟨rfl, hrec1⟩
    · rcases strListLe_cons_iff.mp h2 with hl2 | ⟨heq, _⟩
      · exact absurd hl2 (lt_asymm hl)
      · exact absurd (heq ▸ hl) (lt_irrefl _)
    · rcases strListLe_cons_iff.mp h2 with hl2 | ⟨_, hrec2⟩
      · exact absurd hl2 (lt_irrefl _)
      · rw [strListLe_antisymm xs ys hrec1 hrec2]

theorem strLe_total (a b : String) : strLe a b = true ∨ strLe b a = true :=
  strListLe_total _ _

theorem strLe_trans {a b c : String} (h1 : strLe a b = true) (h2 : strLe b c = true) :
    strLe a c = true :=
  strListLe_trans _ _ _ h1 h2

theorem strLe_antisymm {a b : String} (h1 : strLe a b = true) (h2 : strLe b a = true) :
    a = b := by
  have h := strListLe_antisymm _ _ h1 h2
  cases a
  cases b
  simp only [String.toList] at h
  exact congrArg String.mk h

instance : IsTotal String (fun a b => strLe a b = true) :=
  ⟨strLe_total⟩

instance : IsTrans String (fun a b => strLe a b = true) :=
  ⟨fun _ _ _ => strLe_trans⟩

instance : IsAntisymm String (fun a b => strLe a b = true) :=
  ⟨fun _ _ => strLe_antisymm⟩

instance : IsTotal (String × SecretRef) (fun a b => strLe a.1 b.1 = true) :=
  ⟨fun a b => strLe_total a.1 b.1⟩

instance : IsTrans (String × SecretRef) (fun a b => strLe a.1 b.1 = true) :=
  ⟨fun _ _ _ => strLe_trans⟩

instance : IsTotal K8sSecret (fun a b => strLe a.uid b.uid = true) :=
  ⟨fun a b => strLe_total a.uid b.uid⟩

instance : IsTrans K8sSecret (fun a b => strLe a.uid b.uid = true) :=
  ⟨fun _ _ _ => strLe_trans⟩

/-! ### Resolver and cache lemmas -/

theorem cacheGet_cacheSet_self (c : Cache) (k : String) (v : K8sSecret) :
    cacheGet (cacheSet c k v) k = some v :=
  aget_aset_self c k v

/-- Step 1 of the store adapter: a pass-scoped cache hit returns the
cached record unchanged, performing no store access and no
generation. -/
theorem resolveWith_cacheHit (r : Cache → String → Cache × ROut K8sSecret) (env : Env)
    (app : AppInstance) (c : Cache) (name : String) (s : K8sSecret)
    (h : cacheGet c name = some s) : resolveWith r env app c name = (c, .ok s) := by
  unfold resolveWith
  rw [h]

theorem getOrCreateSecret_cacheHit (fuel : Nat) (env : Env) (app : AppInstance)
    (c : Cache) (name : String) (s : K8sSecret) (h : cacheGet c name = some s) :
    getOrCreateSecret fuel env app c name = (c, .ok s) := by
  cases fuel with
  | zero => exact resolveWith_cacheHit _ _ _ _ _ _ h
  | succ f => exact resolveWith_cacheHit _ _ _ _ _ _ h

/-- Every successful resolution leaves the resolved record in the
pass-scoped cache under the descriptor name. -/
theorem resolveWith_ok_cached (r : Cache → String → Cache × ROut K8sSecret) (env : Env)
    (app : AppInstance) (c : Cache) (name : String) (c' : Cache) (s : K8sSecret)
    (h : resolveWith r env app c name = (c', .ok s)) : cacheGet c' name = some s := by
  unfold resolveWith at h
  cases hc : cacheGet c name with
  | some sec =>
    simp only [hc] at h
    injection h with h1 h2
    injection h2 with h3
    subst h1
    subst h3
    exact hc
  | none =>
    simp only [hc] at h
    cases hb : app.bindings.find? (fun b => b.secretRequest == name) with
    | some binding =>
      simp only [hb] at h
      cases hg : env.getSecretByName binding.secret with
      | error e =>
        simp only [hg] at h
        injection h with h1 h2
        exact ROut.noConfusion h2
      | ok ex =>
        simp only [hg] at h
        injection h with h1 h2
        injection h2 with h3
        subst h1
        subst h3
        exact cacheGet_cacheSet_self c name ex
    | none =>
      simp only [hb] at h
      cases hgen : generateSecretWith r env app c name with
      | mk c2 out =>
        simp only [hgen] at h
        cases out with
        | ok sec =>
          injection h with h1 h2
          injection h2 with h3
          subst h1
          subst h3
          exact cacheGet_cacheSet_self c2 name sec
        | err e =>
          injection h with h1 h2
          exact ROut.noConfusion h2
        | panic =>
          injection h with h1 h2
          exact ROut.noConfusion h2

theorem getOrCreateSecret_ok_cached (fuel : Nat) (env : Env) (app : AppInstance)
    (c : Cache) (name : String) (c' : Cache) (s : K8sSecret)
    (h : getOrCreateSecret fuel env app c name = (c', .ok s)) : cacheGet c' name = some s := by
  cases fuel with
  | zero => exact resolveWith_ok_cached _ _ _ _ _ _ _ h
  | succ f => exact resolveWith_ok_cached _ _ _ _ _ _ _ h

/-! ### CreateSecrets loop-step equations -/

theorem secretsLoop_cons_notFound (fuel : Nat) (env : Env) (app : AppInstance)
    (name : String) (ref : SecretRef) (rest : List (String × SecretRef)) (st : LoopState)
    (c' : Cache) (e : GoErr)
    (hres : getOrCreateSecret fuel env app st.secrets name = (c', .err e))
    (hnf : e.isNotFound = true) :
    secretsLoop fuel env app ((name, ref) :: rest) st =
      secretsLoop fuel env app rest
        { st with
          secrets := c'
          missing := if ref.optional = some true then st.missing
                     else st.missing ++ [name] } := by
  simp only [secretsLoop]
  rw [hres]
  simp [hnf]

theorem secretsLoop_cons_errored (fuel : Nat) (env : Env) (app : AppInstance)
    (name : String) (ref : SecretRef) (rest : List (String × SecretRef)) (st : LoopState)
    (c' : Cache) (e : GoErr)
    (hres : getOrCreateSecret fuel env app st.secrets name = (c', .err e))
    (hnf : e.isNotFound = false) (hapi : e.isAPIStatus = false) :
    secretsLoop fuel env app ((name, ref) :: rest) st =
      secretsLoop fuel env app rest
        { st with
          secrets := c'
          errored := st.errored ++ [name ++ ": " ++ e.message] } := by
  simp only [secretsLoop]
  rw [hres]
  simp [hnf, hapi]

theorem secretsLoop_cons_fatal (fuel : Nat) (env : Env) (app : AppInstance)
    (name : String) (ref : SecretRef) (rest : List (String × SecretRef)) (st : LoopState)
    (c' : Cache) (e : GoErr)
    (hres : getOrCreateSecret fuel env app st.secrets name = (c', .err e))
    (hnf : e.isNotFound = false) (hapi : e.isAPIStatus = true) :
    secretsLoop fuel env app ((name, ref) :: rest) st =
      .fatal { st with secrets := c' } e := by
  simp only [secretsLoop]
  rw [hres]
  simp [hnf, hapi]

theorem secretsLoop_cons_ok (fuel : Nat) (env : Env) (app : AppInstance)
    (name : String) (ref : SecretRef) (rest : List (String × SecretRef)) (st : LoopState)
    (c' : Cache) (sec : K8sSecret)
    (hres : getOrCreateSecret fuel env app st.secrets name = (c', .ok sec)) :
    secretsLoop fuel env app ((name, ref) :: rest) st =
      secretsLoop fuel env app rest
        { st with
          secrets := c'
          objects := st.objects ++ [projectedSecret app name sec] } := by
  simp only [secretsLoop]
  rw [hres]

/-! ### Sorting bridges -/

theorem strLe_refl (a : String) : strLe a a = true := by
  show strListLe a.toList a.toList = true
  induction a.toList with
  | nil => rfl
  | cons x xs ih => simp [strListLe, lt_irrefl, ih]

theorem sortStrings_sorted (l : List String) :
    (sortStrings l).Sorted (fun a b => strLe a b = true) :=
  List.sorted_insertionSort _ l

theorem sortStrings_perm (l : List String) : (sortStrings l).Perm l :=
  List.perm_insertionSort _ l

theorem sortByKey_sorted (l : List (String × SecretRef)) :
    (sortByKey l).Sorted (fun a b => strLe a.1 b.1 = true) :=
  List.sorted_insertionSort _ l

theorem sortByKey_perm (l : List (String × SecretRef)) : (sortByKey l).Perm l :=
  List.perm_insertionSort _ l

theorem sortByUid_sorted (l : List K8sSecret) :
    (sortByUid l).Sorted (fun a b => strLe a.uid b.uid = true) :=
  List.sorted_insertionSort _ l

theorem sortByUid_perm (l : List K8sSecret) : (sortByUid l).Perm l :=
  List.perm_insertionSort _ l

/-- Sorting by key is insensitive to the iteration order of the
descriptor map, provided names are unique (they are map keys). -/
theorem sortByKey_eq_of_perm (l1 l2 : List (String × SecretRef)) (hperm : l1.Perm l2)
    (hnd : (l1.map Prod.fst).Nodup) : sortByKey l1 = sortByKey l2 := by
  have hkey1 : (sortByKey l1).Pairwise (fun a b => ¬ a.1 = b.1) := by
    have h := ((sortByKey_perm l1).map Prod.fst).nodup_iff.mpr hnd
    simpa [List.Nodup, List.pairwise_map] using h
  have hkey2 : (sortByKey l2).Pairwise (fun a b => ¬ a.1 = b.1) := by
    have h := ((sortByKey_perm l2).map Prod.fst).nodup_iff.mpr
      ((hperm.map Prod.fst).nodup_iff.mp hnd)
    simpa [List.Nodup, List.pairwise_map] using h
  haveI : IsAntisymm (String × SecretRef)
      (fun a b => strLe a.1 b.1 = true ∧ ¬ a.1 = b.1) :=
    ⟨fun a b h1 h2 => absurd (strLe_antisymm h1.1 h2.1) h1.2⟩
  apply List.eq_of_perm_of_sorted
    (r := fun a b : String × SecretRef => strLe a.1 b.1 = true ∧ ¬ a.1 = b.1)
  · exact ((sortByKey_perm l1).trans hperm).trans (sortByKey_perm l2).symm
  · exact List.Pairwise.and (sortByKey_sorted l1) hkey1
  · exact List.Pairwise.and (sortByKey_sorted l2) hkey2

/-! ### Data-map wrappers and TLS generation lemmas -/

theorem dget_dset_self (m : DataMap) (k v : String) : dget (dset m k v) k = some v :=
  aget_aset_self m k v

theorem dget_dset_ne (m : DataMap) (k k' v : String) (h : k ≠ k') :
    dget (dset m k v) k' = dget m k' :=
  aget_aset_ne m k k' v h

theorem dgetD_seedData (src : DataMap) (keys : List String) (k : String) (h : k ∈ keys) :
    dgetD (seedData src keys) k = dgetD src k := by
  simp [dgetD, dget_seedData src keys k h]

/-- `generateTLS`, external-CA case: cert+key not both seeded, CA
material unseeded, `caSecret` non-empty.  The CA descriptor is resolved
through `r`; the resulting leaf stores the generated cert/key and the
CA material is NOT written back (secret.go line 205 guard). -/
theorem generateTLSwith_external (r : Cache → String → Cache × ROut K8sSecret) (env : Env)
    (app : AppInstance) (secretName : String) (secretRef : SecretRef) (secrets c' : Cache)
    (caSec : K8sSecret) (cert key : String)
    (hcert : dgetD secretRef.data tlsCertKey = "" ∨ dgetD secretRef.data tlsPrivateKeyKey = "")
    (hca1 : dgetD secretRef.data "ca.crt" = "")
    (hca2 : dgetD secretRef.data "ca.key" = "")
    (hcas : ¬ secretRef.params.caSecret = "")
    (hr : r secrets secretRef.params.caSecret = (c', .ok caSec))
    (hgen : env.generateCert (dgetD caSec.data "ca.crt") (dgetD caSec.data "ca.key")
      secretRef.params = .ok (cert, key))
    (hcreate : ∀ ss, env.createErr ss = none) :
    generateTLSwith r env app secretName secretRef secrets =
      (c', .ok { generateName := secretName ++ "-"
                 ns := app.appNamespace
                 labels := labelsForSecret secretName app
                 data := dset (dset (seedData secretRef.data
                     [tlsCertKey, tlsPrivateKeyKey, "ca.crt", "ca.key"]) tlsCertKey cert)
                   tlsPrivateKeyKey key
                 type := "kubernetes.io/tls" }) := by
  have hguard : ¬ ((dgetD (seedData secretRef.data
      [tlsCertKey, tlsPrivateKeyKey, "ca.crt", "ca.key"]) tlsCertKey).length > 0
      ∧ (dgetD (seedData secretRef.data
      [tlsCertKey, tlsPrivateKeyKey, "ca.crt", "ca.key"]) tlsPrivateKeyKey).length > 0) := by
    rw [dgetD_seedData _ _ _ (by decide), dgetD_seedData _ _ _ (by decide)]
    rcases hcert with hc | hc <;> simp [hc]
  have hca1' : dgetD (seedData secretRef.data
      [tlsCertKey, tlsPrivateKeyKey, "ca.crt", "ca.key"]) "ca.crt" = "" := by
    rw [dgetD_seedData _ _ _ (by decide)]
    exact hca1
  have hca2' : dgetD (seedData secretRef.data
      [tlsCertKey, tlsPrivateKeyKey, "ca.crt", "ca.key"]) "ca.key" = "" := by
    rw [dgetD_seedData _ _ _ (by decide)]
    exact hca2
  simp only [generateTLSwith]
  rw [if_neg hguard]
  rw [hca1', hca2']
  rw [if_pos (by simp)]
  rw [if_neg hcas]
  simp only [hr, hgen, createAnd, hcreate]
  rw [if_neg hcas]

/-- `generateTLS`, fresh-CA case: cert+key not both seeded, CA material
unseeded, `caSecret` empty.  A fresh CA is generated and stored
alongside the generated leaf cert/key (secret.go lines 205-208). -/
theorem generateTLSwith_freshCA (r : Cache → String → Cache × ROut K8sSecret) (env : Env)
    (app : AppInstance) (secretName : String) (secretRef : SecretRef) (secrets : Cache)
    (caPEM caKeyPEM cert key : String)
    (hcert : dgetD secretRef.data tlsCertKey = "" ∨ dgetD secretRef.data tlsPrivateKeyKey = "")
    (hca1 : dgetD secretRef.data "ca.crt" = "")
    (hca2 : dgetD secretRef.data "ca.key" = "")
    (hcas : secretRef.params.caSecret = "")
    (hgenCA : env.generateCA secretRef.params.algorithm = .ok (caPEM, caKeyPEM))
    (hgen : env.generateCert caPEM caKeyPEM secretRef.params = .ok (cert, key))
    (hcreate : ∀ ss, env.createErr ss = none) :
    generateTLSwith r env app secretName secretRef secrets =
      (secrets, .ok { generateName := secretName ++ "-"
                      ns := app.appNamespace
                      labels := labelsForSecret secretName app
                      data := dset (dset (dset (dset (seedData secretRef.data
                          [tlsCertKey, tlsPrivateKeyKey, "ca.crt", "ca.key"]) tlsCertKey cert)
                        tlsPrivateKeyKey key) "ca.crt" caPEM) "ca.key" caKeyPEM
                      type := "kubernetes.io/tls" }) := by
  have hguard : ¬ ((dgetD (seedData secretRef.data
      [tlsCertKey, tlsPrivateKeyKey, "ca.crt", "ca.key"]) tlsCertKey).length > 0
      ∧ (dgetD (seedData secretRef.data
      [tlsCertKey, tlsPrivateKeyKey, "ca.crt", "ca.key"]) tlsPrivateKeyKey).length > 0) := by
    rw [dgetD_seedData _ _ _ (by decide), dgetD_seedData _ _ _ (by decide)]
    rcases hcert with hc | hc <;> simp [hc]
  have hca1' : dgetD (seedData secretRef.data
      [tlsCertKey, tlsPrivateKeyKey, "ca.crt", "ca.key"]) "ca.crt" = "" := by
    rw [dgetD_seedData _ _ _ (by decide)]
    exact hca1
  have hca2' : dgetD (seedData secretRef.data
      [tlsCertKey, tlsPrivateKeyKey, "ca.crt", "ca.key"]) "ca.key" = "" := by
    rw [dgetD_seedData _ _ _ (by decide)]
    exact hca2
  simp only [generateTLSwith]
  rw [if_neg hguard]
  rw [hca1', hca2']
  rw [if_pos (by simp)]
  rw [if_pos hcas]
  simp only [hgenCA, hgen, createAnd, hcreate]
  rw [if_pos hcas]

/-! ### Claim theorems -/

/-- C3: within one reconciliation pass each descriptor name triggers at
most one generation attempt.  (1) A pass-scoped cache hit returns the
cached record with the cache unchanged and no store or generator
activity, at any recursion depth — this is exactly the path taken by
the recursive CA resolution inside TLS generation.  (2) Every
successful resolution stores its record in the cache under the
descriptor name, so every later resolution of that name is a cache
hit.  (3) A TLS leaf whose `caSecret` names a cached record obtains
its CA material from precisely that record and leaves the cache
unchanged; hence two TLS descriptors naming the same `caSecret` draw
their CA material from one and the same resolved secret. -/
theorem claim3_single_generation_per_name :
    (∀ (fuel : Nat) (env : Env) (app : AppInstance) (c : Cache) (name : String)
        (s : K8sSecret), cacheGet c name = some s →
      getOrCreateSecret fuel env app c name = (c, .ok s))
    ∧ (∀ (fuel : Nat) (env : Env) (app : AppInstance) (c : Cache) (name : String)
        (c' : Cache) (s : K8sSecret),
      getOrCreateSecret fuel env app c name = (c', .ok s) →
      cacheGet c' name = some s)
    ∧ (∀ (fuel : Nat) (env : Env) (app : AppInstance) (c : Cache) (leafName : String)
        (ref : SecretRef) (caSec : K8sSecret) (cert key : String),
      dgetD ref.data tlsCertKey = "" ∨ dgetD ref.data tlsPrivateKeyKey = "" →
      dgetD ref.data "ca.crt" = "" →
      dgetD ref.data "ca.key" = "" →
      ¬ ref.params.caSecret = "" →
      cacheGet c ref.params.caSecret = some caSec →
      env.generateCert (dgetD caSec.data "ca.crt") (dgetD caSec.data "ca.key") ref.params
        = .ok (cert, key) →
      (∀ ss, env.createErr ss = none) →
      generateTLSwith (fun cc nn => getOrCreateSecret fuel env app cc nn) env app
          leafName ref c =
        (c, .ok { generateName := leafName ++ "-"
                  ns := app.appNamespace
                  labels := labelsForSecret leafName app
                  data := dset (dset (seedData ref.data
                      [tlsCertKey, tlsPrivateKeyKey, "ca.crt", "ca.key"]) tlsCertKey cert)
                    tlsPrivateKeyKey key
                  type := "kubernetes.io/tls" })) := by
  refine ⟨getOrCreateSecret_cacheHit, ?_, ?_⟩
  · intro fuel env app c name c' s h
    exact getOrCreateSecret_ok_cached fuel env app c name c' s h
  · intro fuel env app c leafName ref caSec cert key hcert hca1 hca2 hcas hcache hgen hcreate
    exact generateTLSwith_external _ env app leafName ref c c caSec cert key hcert hca1 hca2
      hcas (getOrCreateSecret_cacheHit fuel env app c ref.params.caSecret caSec hcache)
      hgen hcreate

def envW3 : Env :=
  { getSecretByName := fun _ => .error (.notFound "secrets" "x")
    listSecretsByLabels := fun _ => .ok []
    getJob := fun _ _ => .error (.notFound "jobs.batch" "x")
    listPods := fun _ _ => .ok []
    createErr := fun _ => none
    generateCA := fun _ => .ok ("FRESHCA", "FRESHCAKEY")
    generateCert := fun _ _ _ => .ok ("LEAFCERT", "LEAFKEY")
    generatePrivateKey := fun _ => .ok "PRIV"
    randomToken := fun _ => ("0123456789abcdef0123456789abcdef", none)
    parseSecretData := fun _ => .ok ("", []) }

def appW3 : AppInstance := {}

def caW3 : K8sSecret :=
  { uid := "u1", data := [("ca.crt", "CAPEM"), ("ca.key", "CAKEYPEM")] }

def refW3 : SecretRef :=
  { type := "tls", params := { caSecret := "ca" } }

theorem claim3_witness :
    generateTLSwith (fun cc nn => getOrCreateSecret 1 envW3 appW3 cc nn) envW3 appW3
        "leaf" refW3 [("ca", caW3)] =
      ([("ca", caW3)],
        .ok { generateName := "leaf-"
              ns := ""
              labels := labelsForSecret "leaf" appW3
              data := dset (dset (seedData refW3.data
                  [tlsCertKey, tlsPrivateKeyKey, "ca.crt", "ca.key"]) tlsCertKey "LEAFCERT")
                tlsPrivateKeyKey "LEAFKEY"
              type := "kubernetes.io/tls" }) :=
  claim3_single_generation_per_name.2.2 1 envW3 appW3 [("ca", caW3)] "leaf" refW3 caW3
    "LEAFCERT" "LEAFKEY" (Or.inl (by decide)) (by decide) (by decide) (by decide)
    (by decide) rfl (fun _ => rfl)

/-- C4: the processing order puts every non-`generated` descriptor
before every `generated` one, each group sorted by name; the order is
a function of the descriptor set alone (invariant under permutation of
the declaration list when names are unique, as map keys are). -/
theorem claim4_processing_order (app : AppInstance) :
    (secretsOrdered app =
      (sortByKey app.specSecrets).filter (fun e => !(e.2.type == "generated"))
        ++ (sortByKey app.specSecrets).filter (fun e => e.2.type == "generated"))
    ∧ (∀ e ∈ (sortByKey app.specSecrets).filter (fun e => !(e.2.type == "generated")),
        e.2.type ≠ "generated")
    ∧ (∀ e ∈ (sortByKey app.specSecrets).filter (fun e => e.2.type == "generated"),
        e.2.type = "generated")
    ∧ ((sortByKey app.specSecrets).filter
        (fun e => !(e.2.type == "generated"))).Sorted (fun a b => strLe a.1 b.1 = true)
    ∧ ((sortByKey app.specSecrets).filter
        (fun e => e.2.type == "generated")).Sorted (fun a b => strLe a.1 b.1 = true)
    ∧ (∀ l2 : List (String × SecretRef), app.specSecrets.Perm l2 →
        (app.specSecrets.map Prod.fst).Nodup →
        secretsOrdered app = secretsOrdered { app with specSecrets := l2 }) := by
  have hfold : ∀ (l acc1 acc2 : List (String × SecretRef)),
      (l.foldl (fun (acc : List (String × SecretRef) × List (String × SecretRef)) entry =>
        if entry.2.type == "generated" then (acc.1, acc.2 ++ [entry])
        else (acc.1 ++ [entry], acc.2)) (acc1, acc2))
        = (acc1 ++ l.filter (fun e => !(e.2.type == "generated")),
           acc2 ++ l.filter (fun e => e.2.type == "generated")) := by
    intro l
    induction l with
    | nil => intro acc1 acc2; simp
    | cons e rest ih =>
      intro acc1 acc2
      simp only [beq_iff_eq] at ih ⊢
      by_cases hp : e.2.type = "generated"
      · simp [List.foldl_cons, List.filter_cons, hp, ih]
      · simp [List.foldl_cons, List.filter_cons, hp, ih]
  have hdecomp : secretsOrdered app =
      (sortByKey app.specSecrets).filter (fun e => !(e.2.type == "generated"))
        ++ (sortByKey app.specSecrets).filter (fun e => e.2.type == "generated") := by
    simp only [secretsOrdered]
    rw [hfold]
    simp
  refine ⟨hdecomp, ?_, ?_, ?_, ?_, ?_⟩
  · intro e he
    have := (List.mem_filter.mp he).2
    simpa using this
  · intro e he
    have := (List.mem_filter.mp he).2
    simpa using this
  · exact (sortByKey_sorted app.specSecrets).sublist (List.filter_sublist _)
  · exact (sortByKey_sorted app.specSecrets).sublist (List.filter_sublist _)
  · intro l2 hperm hnd
    simp only [secretsOrdered]
    rw [sortByKey_eq_of_perm app.specSecrets l2 hperm hnd]

def appW4 : AppInstance :=
  { specSecrets := [("b-gen", { type := "generated" }), ("a2", {}), ("a1", {})] }

theorem claim4_witness :
    secretsOrdered appW4 =
      secretsOrdered { appW4 with
        specSecrets := [("a1", {}), ("a2", {}), ("b-gen", { type := "generated" })] } :=
  (claim4_processing_order appW4).2.2.2.2.2
    [("a1", {}), ("a2", {}), ("b-gen", { type := "generated" })]
    (by decide) (by decide)

/-- C8: when the label-selector lookup returns several stored secrets,
`getSecret` adopts the one with the smallest (lexicographically, and
unique when UIDs are distinct) internal UID. -/
theorem claim8_smallest_uid (env : Env) (app : AppInstance) (name : String)
    (items : List K8sSecret)
    (hlist : env.listSecretsByLabels (labelsForSecret name app) = .ok items)
    (hlen : 1 < items.length)
    (hnd : (items.map K8sSecret.uid).Nodup) :
    ∃ s, getSecret env app name = .ok s ∧ s ∈ items
      ∧ (∀ t ∈ items, strLe s.uid t.uid = true)
      ∧ (∀ t ∈ items, t ≠ s → s.uid ≠ t.uid) := by
  cases hs : sortByUid items with
  | nil =>
    exfalso
    have hlen0 := (sortByUid_perm items).length_eq
    rw [hs] at hlen0
    simp at hlen0
    rw [← hlen0] at hlen
    simp at hlen
  | cons a tl =>
    have hmemA : a ∈ items := (sortByUid_perm items).subset (hs ▸ List.mem_cons_self a tl)
    refine ⟨a, ?_, hmemA, ?_, ?_⟩
    · simp only [getSecret, hlist]
      rw [if_neg (by omega), hs]
      rfl
    · intro t ht
      have ht' : t ∈ sortByUid items := (sortByUid_perm items).symm.subset ht
      rw [hs] at ht'
      rcases List.mem_cons.mp ht' with rfl | htl
      · exact strLe_refl _
      · have hp := sortByUid_sorted items
        rw [hs] at hp
        exact (List.pairwise_cons.mp hp).1 t htl
    · intro t ht hne heq
      exact hne (List.inj_on_of_nodup_map hnd ht hmemA heq.symm)

def secW8a : K8sSecret := { name := "s-x1", uid := "uidB" }

def secW8b : K8sSecret := { name := "s-x2", uid := "uidA" }

def envW8 : Env :=
  { envW3 with listSecretsByLabels := fun _ => .ok [secW8a, secW8b] }

theorem claim8_witness :
    ∃ s, getSecret envW8 appW3 "dup" = .ok s ∧ s ∈ [secW8a, secW8b]
      ∧ (∀ t ∈ [secW8a, secW8b], strLe s.uid t.uid = true)
      ∧ (∀ t ∈ [secW8a, secW8b], t ≠ s → s.uid ≠ t.uid) :=
  claim8_smallest_uid envW8 appW3 "dup" [secW8a, secW8b] rfl (by decide) (by decide)

/-! ### Aggregate condition (C2) and job-not-done classification (C7) -/

theorem condMessage_pos (m e : List String) (h : ¬ (m = [] ∧ e = [])) :
    0 < (condMessage m e).length := by
  have l1 : ("missing: [" : String).length = 10 := rfl
  have l2 : ("errored: [" : String).length = 10 := rfl
  have l3 : ("]" : String).length = 1 := rfl
  have l4 : (" " : String).length = 1 := rfl
  unfold condMessage
  by_cases he : e.length > 0
  · rw [if_pos he]
    simp only [String.length_append]
    omega
  · rw [if_neg he]
    have hm : m ≠ [] := by
      rcases not_and_or.mp h with hm | hee
      · exact hm
      · exact absurd (List.length_eq_zero.mp (by omega)) hee
    rw [if_pos (List.length_pos.mpr hm)]
    simp only [String.length_append]
    omega

/-- C2: when the pass finishes without a fatal store error, the
aggregate condition is success exactly when both the missing and the
errored lists are empty; otherwise it is an error whose message is the
two bracketed groups, each sorted alphabetically (byte-wise, as Go's
`sort.Strings`), missing names first, errored `name: cause` entries
second. -/
theorem claim2_aggregate_condition (fuel : Nat) (env : Env) (app : AppInstance)
    (st : LoopState)
    (h : secretsLoop fuel env app (secretsOrdered app) {} = .done st) :
    CreateSecrets fuel env app =
      .ok { cond := if st.missing = [] ∧ st.errored = [] then .success
                    else .failed (condMessage st.missing st.errored)
            objects := st.objects
            returned := none }
    ∧ (st.missing ≠ [] → st.errored ≠ [] →
        condMessage st.missing st.errored =
          ("missing: [" ++ joinComma (sortStrings st.missing) ++ "]") ++ " "
            ++ "errored: [" ++ joinComma (sortStrings st.errored) ++ "]")
    ∧ (sortStrings st.missing).Sorted (fun a b => strLe a b = true)
    ∧ (sortStrings st.missing).Perm st.missing
    ∧ (sortStrings st.errored).Sorted (fun a b => strLe a b = true)
    ∧ (sortStrings st.errored).Perm st.errored := by
  refine ⟨?_, ?_, sortStrings_sorted _, sortStrings_perm _,
    sortStrings_sorted _, sortStrings_perm _⟩
  · simp only [CreateSecrets, h]
    by_cases hme : st.missing = [] ∧ st.errored = []
    · rw [if_pos hme]
      obtain ⟨h1, h2⟩ := hme
      rw [h1, h2]
      rfl
    · rw [if_neg hme, if_pos (condMessage_pos _ _ hme)]
  · intro hm he
    unfold condMessage
    rw [if_pos (List.length_pos.mpr hm), if_pos (List.length_pos.mpr he)]
    have hbuf : 0 < ("missing: [" ++ joinComma (sortStrings st.missing) ++ "]").length := by
      have l1 : ("missing: [" : String).length = 10 := rfl
      have l3 : ("]" : String).length = 1 := rfl
      simp only [String.length_append]
      omega
    rw [if_pos hbuf]

def envW2 : Env :=
  { getSecretByName := fun _ => .error (.notFound "secrets" "ext")
    listSecretsByLabels := fun _ => .ok []
    getJob := fun _ name =>
      if name = "thejob" then .ok { succeeded := 0 }
      else .error (.notFound "jobs.batch" name)
    listPods := fun _ _ => .ok []
    createErr := fun _ => none
    generateCA := fun _ => .ok ("CAPEM", "CAKEYPEM")
    generateCert := fun ca cakey _ => .ok ("CERT:" ++ ca, "KEY:" ++ cakey)
    generatePrivateKey := fun _ => .ok "PRIVKEY"
    randomToken := fun _ => ("0123456789abcdef0123456789abcdef", none)
    parseSecretData := fun _ => .ok ("", []) }

def appW2 : AppInstance :=
  { specSecrets := [("a", {}), ("b", { type := "generated", params := { job := "thejob" } })] }

theorem claim2_witness :
    CreateSecrets 3 envW2 appW2 =
      .ok { cond := .failed "missing: [a] errored: [b: job not complete]"
            objects := []
            returned := none } := by
  have h := (claim2_aggregate_condition 3 envW2 appW2
    { missing := ["a"], errored := ["b: job not complete"], objects := [], secrets := [] }
    (by decide)).1
  rw [h]
  decide

/-- C7: a found job whose succeeded-replica count is not 1 makes the
extractor fail with `ErrJobNotDone`; the error propagates unchanged
through `generatedSecret`; it is neither a not-found nor an API-status
error, so the aggregation loop classifies the descriptor as errored
(`name: job not complete`), continuing with the remaining descriptors
and leaving the missing list untouched. -/
theorem claim7_jobNotDone_errored :
    (∀ (env : Env) (ns jobName : String) (job : Job),
      env.getJob ns jobName = .ok job → job.succeeded ≠ 1 →
      getJobOutput env ns jobName = .error .jobNotDone)
    ∧ (∀ (env : Env) (app : AppInstance) (secretName : String) (ref : SecretRef),
      getJobOutput env app.statusNamespace ref.params.job = .error .jobNotDone →
      generatedSecret env app secretName ref = .err .jobNotDone)
    ∧ (GoErr.jobNotDone.isNotFound = false ∧ GoErr.jobNotDone.isAPIStatus = false
        ∧ GoErr.jobNotDone.message = "job not complete")
    ∧ (∀ (fuel : Nat) (env : Env) (app : AppInstance) (name : String) (ref : SecretRef)
        (rest : List (String × SecretRef)) (st : LoopState) (c' : Cache),
      getOrCreateSecret fuel env app st.secrets name = (c', .err .jobNotDone) →
      secretsLoop fuel env app ((name, ref) :: rest) st =
        secretsLoop fuel env app rest
          { st with
            secrets := c'
            errored := st.errored ++ [name ++ ": " ++ GoErr.jobNotDone.message] }) := by
  refine ⟨?_, ?_, ⟨rfl, rfl, rfl⟩, ?_⟩
  · intro env ns jobName job hjob hsucc
    simp only [getJobOutput, hjob]
    rw [if_pos hsucc]
  · intro env app secretName ref h
    simp only [generatedSecret, h]
  · intro fuel env app name ref rest st c' hres
    exact secretsLoop_cons_errored fuel env app name ref rest st c' .jobNotDone hres rfl rfl

def envW7 : Env :=
  { envW3 with getJob := fun _ _ => .ok { succeeded := 0 } }

theorem claim7_witness :
    getJobOutput envW7 "target-ns" "the-job" = .error .jobNotDone :=
  claim7_jobNotDone_errored.1 envW7 "target-ns" "the-job" { succeeded := 0 } rfl (by decide)

/-! ### Basic-auth generation (C9) -/

theorem basicStep_seeded (env : Env) (i : Nat) (key : String) (secret : K8sSecret)
    (h : (dgetD secret.data key).length ≠ 0) : basicStep env i key secret = .ok secret := by
  simp only [basicStep]
  rw [if_neg h]

theorem basicStep_panic (env : Env) (i : Nat) (key : String) (secret : K8sSecret)
    (h : (dgetD secret.data key).length = 0)
    (hlen : (env.randomToken i).1.length < (i + 1) * 8) :
    basicStep env i key secret = .panic := by
  simp only [basicStep, goSlice]
  rw [if_pos h, if_neg (by omega)]

theorem basicStep_fill (env : Env) (i : Nat) (key : String) (secret : K8sSecret)
    (h : (dgetD secret.data key).length = 0)
    (hlen : (i + 1) * 8 ≤ (env.randomToken i).1.length)
    (herr : (env.randomToken i).2 = none) :
    basicStep env i key secret =
      .ok (withData secret (dset secret.data key
        (String.mk ((env.randomToken i).1.toList.take ((i + 1) * 8))))) := by
  simp only [basicStep, goSlice, withData]
  rw [if_pos h, if_pos hlen]
  simp only [herr]

theorem basicStep_ne_panic (env : Env) (i : Nat) (key : String) (secret : K8sSecret)
    (htok : (i + 1) * 8 ≤ (env.randomToken i).1.length) :
    basicStep env i key secret ≠ .panic := by
  simp only [basicStep, goSlice]
  by_cases hcond : (dgetD secret.data key).length = 0
  · rw [if_pos hcond, if_pos htok]
    cases (env.randomToken i).2 <;> simp
  · rw [if_neg hcond]
    simp

theorem basicChain_ne_panic (env : Env) (secret : K8sSecret)
    (htok : ∀ i, 16 ≤ (env.randomToken i).1.length) :
    basicChain env secret ≠ .panic := by
  unfold basicChain
  cases h1 : basicStep env 0 basicAuthUsernameKey secret with
  | panic => exact absurd h1 (basicStep_ne_panic env 0 _ _ (by have := htok 0; omega))
  | err e => simp
  | ok s1 =>
    cases h2 : basicStep env 1 basicAuthPasswordKey s1 with
    | panic => exact absurd h2 (basicStep_ne_panic env 1 _ _ (by have := htok 1; omega))
    | err e => simp [h2]
    | ok s2 =>
      simp only [h2, createAnd]
      cases env.createErr s2 <;> simp

/-- C9: `generateBasic` truncates the random token (`v[:8]` on the
username iteration, `v[:16]` on the password iteration) before
inspecting the randomness source's error value, so it is total only if
every returned token — including one returned together with an error —
has length at least 16: (1) tokens of length ≥ 16 never panic; (2) a
token of length < 8 (such as the empty string accompanying an error)
panics on the unseeded-username iteration regardless of the error
value; (3) a token of length < 16 on the password iteration panics
even when the username iteration succeeded. -/
theorem claim9_truncation_before_error_check :
    (∀ (env : Env) (app : AppInstance) (secretName : String) (ref : SecretRef),
      (∀ i, 16 ≤ (env.randomToken i).1.length) →
      generateBasic env app secretName ref ≠ .panic)
    ∧ (∀ (env : Env) (app : AppInstance) (secretName : String) (ref : SecretRef),
      dgetD ref.data basicAuthUsernameKey = "" →
      (env.randomToken 0).1.length < 8 →
      generateBasic env app secretName ref = .panic)
    ∧ (∀ (env : Env) (app : AppInstance) (secretName : String) (ref : SecretRef),
      dgetD ref.data basicAuthUsernameKey = "" →
      8 ≤ (env.randomToken 0).1.length → (env.randomToken 0).2 = none →
      dgetD ref.data basicAuthPasswordKey = "" →
      (env.randomToken 1).1.length < 16 →
      generateBasic env app secretName ref = .panic) := by
  refine ⟨?_, ?_, ?_⟩
  · intro env app secretName ref htok
    exact basicChain_ne_panic env _ htok
  · intro env app secretName ref hu hlen
    have h0 : (dgetD (seedData ref.data [basicAuthUsernameKey, basicAuthPasswordKey])
        basicAuthUsernameKey).length = 0 := by
      rw [dgetD_seedData _ _ _ (by decide), hu]
      rfl
    have h1 := basicStep_panic env 0 basicAuthUsernameKey
      { generateName := secretName ++ "-", ns := app.appNamespace
        labels := labelsForSecret secretName app
        data := seedData ref.data [basicAuthUsernameKey, basicAuthPasswordKey]
        type := "kubernetes.io/basic-auth" } h0 (by omega)
    simp only [generateBasic, basicChain, h1]
  · intro env app secretName ref hu hlen0 herr0 hp hlen1
    have h0 : (dgetD (seedData ref.data [basicAuthUsernameKey, basicAuthPasswordKey])
        basicAuthUsernameKey).length = 0 := by
      rw [dgetD_seedData _ _ _ (by decide), hu]
      rfl
    have h1 := basicStep_fill env 0 basicAuthUsernameKey
      { generateName := secretName ++ "-", ns := app.appNamespace
        labels := labelsForSecret secretName app
        data := seedData ref.data [basicAuthUsernameKey, basicAuthPasswordKey]
        type := "kubernetes.io/basic-auth" } h0 (by omega) herr0
    simp only [withData] at h1
    have hpw : (dgetD (dset (seedData ref.data
        [basicAuthUsernameKey, basicAuthPasswordKey]) basicAuthUsernameKey
        (String.mk ((env.randomToken 0).1.toList.take ((0 + 1) * 8))))
        basicAuthPasswordKey).length = 0 := by
      unfold dgetD
      rw [dget_dset_ne _ _ _ _ (by decide)]
      rw [dget_seedData _ _ _ (by decide)]
      simp only [Option.getD_some]
      rw [hp]
      rfl
    have h2 := basicStep_panic env 1 basicAuthPasswordKey
      { generateName := secretName ++ "-", ns := app.appNamespace
        labels := labelsForSecret secretName app
        data := dset (seedData ref.data [basicAuthUsernameKey, basicAuthPasswordKey])
          basicAuthUsernameKey
          (String.mk ((env.randomToken 0).1.toList.take ((0 + 1) * 8)))
        type := "kubernetes.io/basic-auth" } hpw (by omega)
    simp only [generateBasic, basicChain, h1, h2]

def envW9 : Env :=
  { envW3 with randomToken := fun _ => ("", some (.other "rand source failed")) }

theorem claim9_witness :
    generateBasic envW9 appW3 "pass" { type := "basic" } = .panic :=
  claim9_truncation_before_error_check.2.1 envW9 appW3 "pass" { type := "basic" }
    rfl (by decide)

/-! ### Binding absence (C1) and generated-secret data (C5) -/

def envW1 : Env :=
  { envW3 with getSecretByName := fun n => .error (.notFound "secrets" n) }

def appW1 : AppInstance :=
  { bindings := [{ secretRequest := "s1", secret := "ext" }]
    specSecrets := [("s1", {})] }

/-- C1 counterexample: a required descriptor `s1` bound to the absent
external secret `ext`.  The pass does NOT abort: the handler returns
no error (`returned = none`) and the descriptor is classified as
missing — `CreateSecrets` checks `IsNotFound` before the
`APIStatus` fatal branch (secret.go lines 405-412), so the binding
target's absence is a recoverable outcome, contradicting the claim
that it is a fatal-shaped error aborting the whole pass. -/
theorem claim1_counterexample :
    CreateSecrets 1 envW1 appW1 =
      .ok { cond := .failed "missing: [s1]", objects := [], returned := none } := by
  decide

/-- C1 amended: with a binding present, resolution fetches the bound
secret directly by name (no store search, no generation); if the bound
secret is absent the resulting not-found error is classified by the
aggregation loop like any other absence — the descriptor is counted
missing when required and skipped when optional — and the pass
continues. -/
theorem claim1_amended_binding_absence :
    (∀ (fuel : Nat) (env : Env) (app : AppInstance) (c : Cache) (name : String)
        (b : Binding),
      cacheGet c name = none →
      app.bindings.find? (fun bb => bb.secretRequest == name) = some b →
      getOrCreateSecret fuel env app c name =
        match env.getSecretByName b.secret with
        | .error e => (c, .err e)
        | .ok existing => (cacheSet c name existing, .ok existing))
    ∧ (∀ (fuel : Nat) (env : Env) (app : AppInstance) (name : String) (ref : SecretRef)
        (rest : List (String × SecretRef)) (st : LoopState) (c' : Cache) (e : GoErr),
      getOrCreateSecret fuel env app st.secrets name = (c', .err e) →
      e.isNotFound = true →
      secretsLoop fuel env app ((name, ref) :: rest) st =
        secretsLoop fuel env app rest
          { st with
            secrets := c'
            missing := if ref.optional = some true then st.missing
                       else st.missing ++ [name] }) := by
  constructor
  · intro fuel env app c name b hc hb
    cases fuel with
    | zero => simp only [getOrCreateSecret, resolveWith, hc, hb]
    | succ f => simp only [getOrCreateSecret, resolveWith, hc, hb]
  · intro fuel env app name ref rest st c' e hres hnf
    exact secretsLoop_cons_notFound fuel env app name ref rest st c' e hres hnf

theorem claim1_witness :
    getOrCreateSecret 1 envW1 appW1 [] "s1" = ([], .err (.notFound "secrets" "ext")) := by
  have h := claim1_amended_binding_absence.1 1 envW1 appW1 [] "s1"
    { secretRequest := "s1", secret := "ext" } rfl (by decide)
  exact h.trans (by decide)

def envW5 : Env :=
  { envW3 with
    getJob := fun _ _ => .ok { succeeded := 1 }
    listPods := fun _ _ => .ok [{ statuses := [{ terminated := some (0, "PAYLOAD") }] }] }

def appW5 : AppInstance := { statusNamespace := "tns" }

def refW5 : SecretRef :=
  { type := "generated", data := [("a", "b")], params := { job := "j" } }

/-- C5 counterexample: a `generated` descriptor with seed data
`{a: b}` and no format.  `generatedSecret` calls `seedData` with an
empty key list (secret.go line 99), so the produced secret's data is
empty: the field `a` named in seedData is NOT carried over, refuting
the claim that every seedData field appears with its seeded value. -/
theorem claim5_counterexample :
    generatedSecret envW5 appW5 "g" refW5 =
      .ok { generateName := "g-", ns := "", labels := labelsForSecret "g" appW5
            data := [], type := "Opaque" }
    ∧ dget ([] : DataMap) "a" = none := by
  constructor
  · decide
  · rfl

/-- C5 amended: for a `generated` descriptor whose job output is
obtained, no fields are copied from seedData (the generator's seed key
list is empty); the data is exactly empty for an absent or unknown
format, exactly `content ↦ payload` for format `text`, and exactly the
parsed payload's field mapping (with the type tag overridden when
non-empty) for format `json`. -/
theorem claim5_amended_generated_data (env : Env) (app : AppInstance)
    (secretName : String) (ref : SecretRef) (output : String)
    (hjob : getJobOutput env app.statusNamespace ref.params.job = .ok output) :
    (ref.params.format ≠ "text" → ref.params.format ≠ "json" →
      generatedSecret env app secretName ref =
        .ok { generateName := secretName ++ "-", ns := app.appNamespace
              labels := labelsForSecret secretName app
              data := [], type := "Opaque" })
    ∧ (ref.params.format = "text" →
      generatedSecret env app secretName ref =
        .ok { generateName := secretName ++ "-", ns := app.appNamespace
              labels := labelsForSecret secretName app
              data := [("content", output)], type := "Opaque" })
    ∧ (∀ ty fields, ref.params.format = "json" →
      env.parseSecretData output = .ok (ty, fields) →
      generatedSecret env app secretName ref =
        .ok { generateName := secretName ++ "-", ns := app.appNamespace
              labels := labelsForSecret secretName app
              data := fields.foldl (fun d p => dset d p.1 p.2) []
              type := if ty ≠ "" then ty else "Opaque" }) := by
  refine ⟨?_, ?_, ?_⟩
  · intro hf1 hf2
    simp only [generatedSecret, hjob]
    rfl
  · intro hf
    simp only [generatedSecret, hjob, hf]
    rfl
  · intro ty fields hf hparse
    simp only [generatedSecret, hjob, hf, hparse]
    rfl

theorem claim5_witness :
    generatedSecret envW5 appW5 "g" { refW5 with params := { job := "j", format := "text" } } =
      .ok { generateName := "g-", ns := "", labels := labelsForSecret "g" appW5
            data := [("content", "PAYLOAD")], type := "Opaque" } :=
  (claim5_amended_generated_data envW5 appW5 "g"
    { refW5 with params := { job := "j", format := "text" } } "PAYLOAD" rfl).2.1 rfl

/-! ### TLS CA storage (C6) and seeded-entry presence (C10) -/

def refW6 : SecretRef :=
  { type := "tls", data := [("ca.crt", "X"), ("ca.key", "Y")]
    params := { caSecret := "other" } }

/-- C6 counterexample: a TLS descriptor with unseeded cert/key but
fully seeded CA material and a non-empty `caSecret`.  The claim says
the `caSecret` descriptor is resolved through the engine and the leaf
stores no CA material; the code takes the seeded-CA shortcut
(secret.go line 183): the resolver is never invoked (it would return
an error here) and the leaf keeps the seeded CA bytes `X`/`Y`. -/
theorem claim6_counterexample :
    generateTLSwith (fun c _ => (c, .err (.other "resolver invoked"))) envW3 appW3
        "leaf" refW6 [] =
      ([], .ok { generateName := "leaf-", ns := ""
                 labels := labelsForSecret "leaf" appW3
                 data := dset (dset (seedData refW6.data
                     [tlsCertKey, tlsPrivateKeyKey, "ca.crt", "ca.key"])
                   tlsCertKey "LEAFCERT") tlsPrivateKeyKey "LEAFKEY"
                 type := "kubernetes.io/tls" })
    ∧ dget (dset (dset (seedData refW6.data
        [tlsCertKey, tlsPrivateKeyKey, "ca.crt", "ca.key"])
        tlsCertKey "LEAFCERT") tlsPrivateKeyKey "LEAFKEY") "ca.crt" = some "X" := by
  constructor
  · decide
  · decide

/-- C6 amended: for a TLS descriptor whose cert and key are not both
seeded AND whose CA cert and CA key are not seeded: if `caSecret` is
empty a fresh CA is generated and stored in the leaf alongside the
generated cert/key; if `caSecret` is non-empty that descriptor is
resolved through the engine's resolver and the leaf stores only the
generated cert/key — its `ca.crt`/`ca.key` entries keep their (empty)
seed values, not the resolved CA material. -/
theorem claim6_amended_tls_ca_storage :
    (∀ (r : Cache → String → Cache × ROut K8sSecret) (env : Env) (app : AppInstance)
        (secretName : String) (ref : SecretRef) (secrets : Cache)
        (caPEM caKeyPEM cert key : String),
      dgetD ref.data tlsCertKey = "" ∨ dgetD ref.data tlsPrivateKeyKey = "" →
      dgetD ref.data "ca.crt" = "" → dgetD ref.data "ca.key" = "" →
      ref.params.caSecret = "" →
      env.generateCA ref.params.algorithm = .ok (caPEM, caKeyPEM) →
      env.generateCert caPEM caKeyPEM ref.params = .ok (cert, key) →
      (∀ ss, env.createErr ss = none) →
      ∃ s, generateTLSwith r env app secretName ref secrets = (secrets, .ok s)
        ∧ dget s.data tlsCertKey = some cert
        ∧ dget s.data tlsPrivateKeyKey = some key
        ∧ dget s.data "ca.crt" = some caPEM
        ∧ dget s.data "ca.key" = some caKeyPEM)
    ∧ (∀ (r : Cache → String → Cache × ROut K8sSecret) (env : Env) (app : AppInstance)
        (secretName : String) (ref : SecretRef) (secrets c' : Cache)
        (caSec : K8sSecret) (cert key : String),
      dgetD ref.data tlsCertKey = "" ∨ dgetD ref.data tlsPrivateKeyKey = "" →
      dgetD ref.data "ca.crt" = "" → dgetD ref.data "ca.key" = "" →
      ¬ ref.params.caSecret = "" →
      r secrets ref.params.caSecret = (c', .ok caSec) →
      env.generateCert (dgetD caSec.data "ca.crt") (dgetD caSec.data "ca.key") ref.params
        = .ok (cert, key) →
      (∀ ss, env.createErr ss = none) →
      ∃ s, generateTLSwith r env app secretName ref secrets = (c', .ok s)
        ∧ dget s.data tlsCertKey = some cert
        ∧ dget s.data tlsPrivateKeyKey = some key
        ∧ dget s.data "ca.crt" = some ""
        ∧ dget s.data "ca.key" = some "") := by
  constructor
  · intro r env app secretName ref secrets caPEM caKeyPEM cert key
      hcert hca1 hca2 hcas hgca hgc hcr
    refine ⟨_, generateTLSwith_freshCA r env app secretName ref secrets caPEM caKeyPEM
      cert key hcert hca1 hca2 hcas hgca hgc hcr, ?_, ?_, ?_, ?_⟩
    · rw [dget_dset_ne _ _ _ _ (by decide), dget_dset_ne _ _ _ _ (by decide),
        dget_dset_ne _ _ _ _ (by decide), dget_dset_self]
    · rw [dget_dset_ne _ _ _ _ (by decide), dget_dset_ne _ _ _ _ (by decide),
        dget_dset_self]
    · rw [dget_dset_ne _ _ _ _ (by decide), dget_dset_self]
    · rw [dget_dset_self]
  · intro r env app secretName ref secrets c' caSec cert key
      hcert hca1 hca2 hcas hr hgc hcr
    refine ⟨_, generateTLSwith_external r env app secretName ref secrets c' caSec
      cert key hcert hca1 hca2 hcas hr hgc hcr, ?_, ?_, ?_, ?_⟩
    · rw [dget_dset_ne _ _ _ _ (by decide), dget_dset_self]
    · rw [dget_dset_self]
    · rw [dget_dset_ne _ _ _ _ (by decide), dget_dset_ne _ _ _ _ (by decide),
        dget_seedData _ _ _ (by decide), hca1]
    · rw [dget_dset_ne _ _ _ _ (by decide), dget_dset_ne _ _ _ _ (by decide),
        dget_seedData _ _ _ (by decide), hca2]

theorem claim6_witness :
    ∃ s, generateTLSwith (fun c _ => (c, .ok caW3)) envW3 appW3 "leaf6"
        { type := "tls", params := { caSecret := "tls-ca" } } [] = ([], .ok s)
      ∧ dget s.data tlsCertKey = some "LEAFCERT"
      ∧ dget s.data tlsPrivateKeyKey = some "LEAFKEY"
      ∧ dget s.data "ca.crt" = some ""
      ∧ dget s.data "ca.key" = some "" :=
  claim6_amended_tls_ca_storage.2 (fun c _ => (c, .ok caW3)) envW3 appW3 "leaf6"
    { type := "tls", params := { caSecret := "tls-ca" } } [] [] caW3
    "LEAFCERT" "LEAFKEY" (Or.inl rfl) rfl rfl (by decide) rfl rfl (fun _ => rfl)

/-- C10 counterexample: the docker generator's declared field with an
absent seed ends up holding the literal two-byte JSON object, not the
empty byte string the claim asserts. -/
theorem claim10_counterexample :
    generateDocker envW3 appW3 "d" { type := "docker" } =
      .ok { generateName := "d-", ns := "", labels := labelsForSecret "d" appW3
            data := [(dockerConfigJsonKey, "\x7b\x7d")]
            type := "kubernetes.io/dockerconfigjson" }
    ∧ ("\x7b\x7d" : String) ≠ "" := by
  constructor
  · decide
  · decide

/-- C10 amended: `seedData` inserts an entry for every declared key
even when the seed is absent — the inserted value is then the empty
byte string, never an omitted key; generators may subsequently fill
the field (docker fills the empty config with the literal JSON
object), and where they do not — the TLS leaf under an external
`caSecret` — the entries persist with empty values. -/
theorem claim10_amended_declared_keys_present :
    (∀ (src : DataMap) (keys : List String) (k : String), k ∈ keys →
      dget (seedData src keys) k = some (dgetD src k))
    ∧ (∀ (env : Env) (app : AppInstance) (name : String) (ref : SecretRef),
      (∀ ss, env.createErr ss = none) →
      ∃ s, generateDocker env app name ref = .ok s
        ∧ (dget s.data dockerConfigJsonKey).isSome = true)
    ∧ (∀ (r : Cache → String → Cache × ROut K8sSecret) (env : Env) (app : AppInstance)
        (secretName : String) (ref : SecretRef) (secrets c' : Cache)
        (caSec : K8sSecret) (cert key : String),
      dgetD ref.data tlsCertKey = "" ∨ dgetD ref.data tlsPrivateKeyKey = "" →
      dgetD ref.data "ca.crt" = "" → dgetD ref.data "ca.key" = "" →
      ¬ ref.params.caSecret = "" →
      r secrets ref.params.caSecret = (c', .ok caSec) →
      env.generateCert (dgetD caSec.data "ca.crt") (dgetD caSec.data "ca.key") ref.params
        = .ok (cert, key) →
      (∀ ss, env.createErr ss = none) →
      ∃ s, generateTLSwith r env app secretName ref secrets = (c', .ok s)
        ∧ dget s.data "ca.crt" = some "" ∧ dget s.data "ca.key" = some ""
        ∧ (dget s.data tlsCertKey).isSome = true
        ∧ (dget s.data tlsPrivateKeyKey).isSome = true) := by
  refine ⟨dget_seedData, ?_, ?_⟩
  · intro env app name ref hcr
    by_cases hd : (dgetD (seedData ref.data [dockerConfigJsonKey])
        dockerConfigJsonKey).length = 0
    · refine ⟨{ generateName := name ++ "-", ns := app.appNamespace
                labels := labelsForSecret name app
                data := dset (seedData ref.data [dockerConfigJsonKey])
                  dockerConfigJsonKey "\x7b\x7d"
                type := "kubernetes.io/dockerconfigjson" }, ?_, ?_⟩
      · simp only [generateDocker, if_pos hd, createAnd, hcr]
      · rw [dget_dset_self]
        rfl
    · refine ⟨{ generateName := name ++ "-", ns := app.appNamespace
                labels := labelsForSecret name app
                data := seedData ref.data [dockerConfigJsonKey]
                type := "kubernetes.io/dockerconfigjson" }, ?_, ?_⟩
      · simp only [generateDocker, if_neg hd, createAnd, hcr]
      · rw [dget_seedData _ _ _ (by decide)]
        rfl
  · intro r env app secretName ref secrets c' caSec cert key
      hcert hca1 hca2 hcas hr hgc hcr
    refine ⟨_, generateTLSwith_external r env app secretName ref secrets c' caSec
      cert key hcert hca1 hca2 hcas hr hgc hcr, ?_, ?_, ?_, ?_⟩
    · rw [dget_dset_ne _ _ _ _ (by decide), dget_dset_ne _ _ _ _ (by decide),
        dget_seedData _ _ _ (by decide), hca1]
    · rw [dget_dset_ne _ _ _ _ (by decide), dget_dset_ne _ _ _ _ (by decide),
        dget_seedData _ _ _ (by decide), hca2]
    · rw [dget_dset_ne _ _ _ _ (by decide), dget_dset_self]
      rfl
    · rw [dget_dset_self]
      rfl

theorem claim10_witness :
    ∃ s, generateDocker envW3 appW3 "d2"
        { type := "docker", data := [(dockerConfigJsonKey, "seeded")] } = .ok s
      ∧ (dget s.data dockerConfigJsonKey).isSome = true :=
  claim10_amended_declared_keys_present.2.1 envW3 appW3 "d2"
    { type := "docker", data := [(dockerConfigJsonKey, "seeded")] } (fun _ => rfl)

end HerdSecrets
